import Mathlib

/-!
Verification development for the beehive data generator
(`generate_hive_data_json.py`).

The generator is embedded shallowly over `ℚ`:

* Python floats become exact rationals.
* `np.sin(2 * np.pi * r)` becomes `env.sin2pi r` for an abstract function
  `sin2pi : ℚ → ℚ`; every sine call in the source has the form
  `sin (2π · r)` with `r` rational, so this captures all of them.
  Theorems that need it assume `-1 ≤ sin2pi x ≤ 1`.
* The time grid is a list of absolute hour counts (the source builds it
  with `pd.date_range` at hourly frequency, so consecutive grid points differ
  by one hour); `timestamp.hour` becomes `t % 24` and
  `timestamp.timetuple().tm_yday` becomes an abstract calendar map
  `day_of_year : ℕ → ℕ` carried by the environment.
* The random draws (`np.random.normal`, `np.random.uniform`) become
  explicit oracle functions of the timestamp and the hive identifier;
  theorems that need the contract of `np.random.uniform(0.7, 1.3)`
  assume the drawn value lies in `[0.7, 1.3]`.
* Python `round(x, d)` becomes `roundTo d x`, rounding to the nearest
  multiple of `10 ^ (-d)` over `ℚ`.
-/

namespace Beehive

/-- A hive record, as in the `hives_config` table of the source. -/
structure Hive where
  id : String
  name : String
  type : String
  location : String
  master_id : Option String
deriving DecidableEq, Repr, Inhabited

/-- The static 7-entry hive topology (`hives_config` in the source). -/
def hives_config : List Hive :=
  [ { id := "master_001", name := "Master Hive Alpha", type := "master",
      location := "North Field", master_id := none },
    { id := "worker_001", name := "Worker Hive 1", type := "worker",
      location := "North Field", master_id := some "master_001" },
    { id := "worker_002", name := "Worker Hive 2", type := "worker",
      location := "North Field", master_id := some "master_001" },
    { id := "worker_003", name := "Worker Hive 3", type := "worker",
      location := "East Field", master_id := some "master_001" },
    { id := "master_002", name := "Master Hive Beta", type := "master",
      location := "South Field", master_id := none },
    { id := "worker_004", name := "Worker Hive 4", type := "worker",
      location := "South Field", master_id := some "master_002" },
    { id := "worker_005", name := "Worker Hive 5", type := "worker",
      location := "West Field", master_id := some "master_002" } ]

/-- The ambient inputs of one run: the abstracted sine, the calendar map
from absolute hour to day-of-year, and the five random draws the source
makes per (timestamp, hive) step, keyed by timestamp and hive id.
`sin2pi x` models `sin (2 * π * x)`. -/
structure Env where
  sin2pi : ℚ → ℚ
  day_of_year : ℕ → ℕ
  temp_noise : ℕ → String → ℚ
  humidity_noise : ℕ → String → ℚ
  weight_noise : ℕ → String → ℚ
  activity_noise : ℕ → String → ℚ
  production_uniform : ℕ → String → ℚ

/-- `timestamp.hour` for an hourly grid point expressed in absolute hours. -/
def hour (t : ℕ) : ℕ := t % 24

/-- Rounding to `d` decimal places, the model of Python `round(x, d)`. -/
def roundTo (d : ℕ) (q : ℚ) : ℚ := ((round (q * 10 ^ d) : ℤ) : ℚ) / 10 ^ d

/-- `base_temp = 35 + 3*sin(2π*hour/24) + 2*sin(2π*day_of_year/365)`. -/
def base_temp (env : Env) (t : ℕ) : ℚ :=
  35 + 3 * env.sin2pi ((hour t : ℚ) / 24) + 2 * env.sin2pi ((env.day_of_year t : ℚ) / 365)

/-- `temperature = base_temp + temp_noise`. -/
def temperature (env : Env) (t : ℕ) (hive : Hive) : ℚ :=
  base_temp env t + env.temp_noise t hive.id

/-- `base_humidity = 65 - 10*sin(2π*hour/24) + 5*sin(2π*day_of_year/365)`. -/
def base_humidity (env : Env) (t : ℕ) : ℚ :=
  65 - 10 * env.sin2pi ((hour t : ℚ) / 24) + 5 * env.sin2pi ((env.day_of_year t : ℚ) / 365)

/-- `humidity = max(30, min(90, base_humidity + humidity_noise))`. -/
def humidity (env : Env) (t : ℕ) (hive : Hive) : ℚ :=
  max 30 (min 90 (base_humidity env t + env.humidity_noise t hive.id))

/-- `base_weight = 40` for master hives, `32` otherwise. -/
def base_weight (hive : Hive) : ℚ :=
  if hive.type = "master" then 40 else 32

/-- `seasonal_weight = 5*sin(2π*day_of_year/365)`. -/
def seasonal_weight (env : Env) (t : ℕ) : ℚ :=
  5 * env.sin2pi ((env.day_of_year t : ℚ) / 365)

/-- `daily_weight = -2*sin(2π*(hour-6)/24)` during hours 6..18, else 0. -/
def daily_weight (env : Env) (t : ℕ) : ℚ :=
  if 6 ≤ hour t ∧ hour t ≤ 18 then -2 * env.sin2pi (((hour t : ℚ) - 6) / 24) else 0

/-- `weight = base_weight + seasonal_weight + daily_weight + weight_noise`. -/
def weight (env : Env) (t : ℕ) (hive : Hive) : ℚ :=
  base_weight hive + seasonal_weight env t + daily_weight env t + env.weight_noise t hive.id

/-- `base_activity = 50 + 30*sin(2π*(hour-6)/12)` during hours 6..18, else 20. -/
def base_activity (env : Env) (t : ℕ) : ℚ :=
  if 6 ≤ hour t ∧ hour t ≤ 18 then 50 + 30 * env.sin2pi (((hour t : ℚ) - 6) / 12) else 20

/-- `activity = max(0, min(100, base_activity + noise))`. -/
def activity (env : Env) (t : ℕ) (hive : Hive) : ℚ :=
  max 0 (min 100 (base_activity env t + env.activity_noise t hive.id))

/-- `production_multiplier = 1.5` for master hives, `1.0` otherwise. -/
def production_multiplier (hive : Hive) : ℚ :=
  if hive.type = "master" then 1.5 else 1.0

/-- `temp_factor = 1.0` when `33 ≤ temperature ≤ 37`, else `0.7`. -/
def temp_factor (env : Env) (t : ℕ) (hive : Hive) : ℚ :=
  if 33 ≤ temperature env t hive ∧ temperature env t hive ≤ 37 then 1.0 else 0.7

/-- `humidity_factor = 1.0` when `45 ≤ humidity ≤ 65`, else `0.8`. -/
def humidity_factor (env : Env) (t : ℕ) (hive : Hive) : ℚ :=
  if 45 ≤ humidity env t hive ∧ humidity env t hive ≤ 65 then 1.0 else 0.8

/-- `activity_factor = activity / 100`. -/
def activity_factor (env : Env) (t : ℕ) (hive : Hive) : ℚ :=
  activity env t hive / 100

/-- `seasonal_factor = 0.5 + 0.8*(0.5 + 0.5*sin(2π*(day_of_year-80)/365))`. -/
def seasonal_factor (env : Env) (t : ℕ) : ℚ :=
  0.5 + 0.8 * (0.5 + 0.5 * env.sin2pi (((env.day_of_year t : ℚ) - 80) / 365))

/-- `base_hourly_production = 0.008 * production_multiplier`. -/
def base_hourly_production (hive : Hive) : ℚ :=
  0.008 * production_multiplier hive

/-- `hourly_production`: the production formula during active hours 6..20,
and `0` outside them; the last factor is the `np.random.uniform(0.7, 1.3)`
draw supplied by the environment. -/
def hourly_production (env : Env) (t : ℕ) (hive : Hive) : ℚ :=
  if 6 ≤ hour t ∧ hour t ≤ 20 then
    base_hourly_production hive * temp_factor env t hive * humidity_factor env t hive *
      activity_factor env t hive * seasonal_factor env t * env.production_uniform t hive.id
  else 0

/-- `production_efficiency = hourly_production / (activity / 100)` when
`activity > 0`, else `0`. -/
def production_efficiency (env : Env) (t : ℕ) (hive : Hive) : ℚ :=
  if 0 < activity env t hive then
    hourly_production env t hive / (activity env t hive / 100)
  else 0

/-- One emitted row (the dict appended to `data` in the source). -/
structure Reading where
  timestamp : ℕ
  hive_id : String
  hive_name : String
  hive_type : String
  location : String
  master_id : Option String
  temperature : ℚ
  humidity : ℚ
  weight : ℚ
  activity_level : ℚ
  hourly_production : ℚ
  cumulative_production : ℚ
  production_efficiency : ℚ
deriving DecidableEq, Repr, Inhabited

/-- The row the source appends for hive `hive` at timestamp `t`, where
`cum` is the value of `cumulative_production[hive.id]` after the update
of this step. Each numeric field carries the rounding the source applies. -/
def mkReading (env : Env) (t : ℕ) (hive : Hive) (cum : ℚ) : Reading :=
  { timestamp := t
    hive_id := hive.id
    hive_name := hive.name
    hive_type := hive.type
    location := hive.location
    master_id := hive.master_id
    temperature := roundTo 1 (temperature env t hive)
    humidity := roundTo 1 (humidity env t hive)
    weight := roundTo 1 (weight env t hive)
    activity_level := roundTo 0 (activity env t hive)
    hourly_production := roundTo 4 (hourly_production env t hive)
    cumulative_production := roundTo 3 cum
    production_efficiency := roundTo 4 (production_efficiency env t hive) }

/-- One iteration of the inner loop body: update the accumulator entry of
`hive.id` by the production of this hour and emit the row. -/
def stepHive (env : Env) (t : ℕ) (cum : String → ℚ) (hive : Hive) :
    (String → ℚ) × Reading :=
  let h := hourly_production env t hive
  let cum2 : String → ℚ := fun k => if k = hive.id then cum k + h else cum k
  (cum2, mkReading env t hive (cum2 hive.id))

/-- The inner loop over the hive list at one timestamp, threading the
accumulator map and collecting the emitted rows in order. -/
def stepTime (env : Env) (t : ℕ) : (String → ℚ) → List Hive → (String → ℚ) × List Reading
  | cum, [] => (cum, [])
  | cum, hive :: rest =>
    let p := stepHive env t cum hive
    let q := stepTime env t p.1 rest
    (q.1, p.2 :: q.2)

/-- The outer loop over the time grid, threading the accumulator map. -/
def genAux (env : Env) : (String → ℚ) → List ℕ → List Reading
  | _, [] => []
  | cum, t :: ts =>
    let p := stepTime env t cum hives_config
    p.2 ++ genAux env p.1 ts

/-- `generate_beehive_data`: the accumulator starts at `0` for every hive,
the rows are produced timestamp-major and hive-minor, and the hive
topology is returned alongside. The time grid is the explicit input that
`pd.date_range(start_time, end_time)` produces hourly in the source. -/
def generate_beehive_data (env : Env) (times : List ℕ) : List Reading × List Hive :=
  (genAux env (fun _ => 0) times, hives_config)

/-- Running sum of the raw (pre-rounding) hourly production of one hive
over a list of timestamps. -/
def running_sum (env : Env) (hive : Hive) (ts : List ℕ) : ℚ :=
  (ts.map (fun t => hourly_production env t hive)).sum

/-- A neutral concrete environment: every sine value 0, day-of-year 172,
all Gaussian draws 0, every uniform draw 1. -/
def env_neutral : Env :=
  { sin2pi := fun _ => 0
    day_of_year := fun _ => 172
    temp_noise := fun _ _ => 0
    humidity_noise := fun _ _ => 0
    weight_noise := fun _ _ => 0
    activity_noise := fun _ _ => 0
    production_uniform := fun _ _ => 1 }

/-- Like `env_neutral` but the activity draw is -49.7, so the raw
activity at a daytime hour is 0.3: positive, yet rounding to an integer
displays it as 0. -/
def env_low_activity : Env :=
  { env_neutral with activity_noise := fun _ _ => -497 / 10 }

/-- Like `env_neutral` but the activity draw is -100, clamping the raw
activity at a daytime hour to exactly 0. -/
def env_zero_activity : Env :=
  { env_neutral with activity_noise := fun _ _ => -100 }

/-- Like `env_neutral` but the activity draw is +60, so the raw activity
at a daytime hour clamps to exactly 100. -/
def env_high_activity : Env :=
  { env_neutral with activity_noise := fun _ _ => 60 }

/-! Helper lemmas about rounding. -/

theorem round_mono_rat {x y : ℚ} (h : x ≤ y) : round x ≤ round y := by
  rw [round_eq, round_eq]
  exact Int.floor_le_floor (by linarith)

theorem roundTo_mono (d : ℕ) {x y : ℚ} (h : x ≤ y) : roundTo d x ≤ roundTo d y := by
  unfold roundTo
  have hp : (0:ℚ) < 10 ^ d := by positivity
  have hm : x * 10 ^ d ≤ y * 10 ^ d := by
    exact mul_le_mul_of_nonneg_right h (le_of_lt hp)
  have := round_mono_rat hm
  exact div_le_div_of_nonneg_right (by exact_mod_cast this) hp.le

theorem roundTo_natCast (d n : ℕ) : roundTo d ((n : ℚ)) = n := by
  unfold roundTo
  have : ((n : ℚ)) * 10 ^ d = (((n * 10 ^ d : ℕ) : ℤ) : ℚ) := by push_cast; ring
  rw [this, round_intCast]
  have hp : (0:ℚ) < 10 ^ d := by positivity
  field_simp

theorem roundTo_zero (d : ℕ) : roundTo d 0 = 0 := by
  have := roundTo_natCast d 0
  simpa using this

/-! Helper lemmas about the loop structure. -/

theorem stepHive_fst (env : Env) (t : ℕ) (cum : String → ℚ) (hive : Hive) :
    (stepHive env t cum hive).1 =
      fun k => if k = hive.id then cum k + hourly_production env t hive else cum k := rfl

theorem stepHive_snd (env : Env) (t : ℕ) (cum : String → ℚ) (hive : Hive) :
    (stepHive env t cum hive).2 =
      mkReading env t hive (cum hive.id + hourly_production env t hive) := by
  simp [stepHive]

theorem stepTime_nil (env : Env) (t : ℕ) (cum : String → ℚ) :
    stepTime env t cum [] = (cum, []) := rfl

theorem stepTime_cons (env : Env) (t : ℕ) (cum : String → ℚ) (hive : Hive) (rest : List Hive) :
    stepTime env t cum (hive :: rest) =
      ((stepTime env t (stepHive env t cum hive).1 rest).1,
        (stepHive env t cum hive).2 :: (stepTime env t (stepHive env t cum hive).1 rest).2) := rfl

theorem genAux_nil (env : Env) (cum : String → ℚ) : genAux env cum [] = [] := rfl

theorem genAux_cons (env : Env) (cum : String → ℚ) (t : ℕ) (ts : List ℕ) :
    genAux env cum (t :: ts) =
      (stepTime env t cum hives_config).2 ++
        genAux env (stepTime env t cum hives_config).1 ts := rfl

theorem stepTime_snd_length (env : Env) (t : ℕ) :
    ∀ (hs : List Hive) (cum : String → ℚ), (stepTime env t cum hs).2.length = hs.length
  | [], _ => rfl
  | _ :: rest, cum => by
    rw [stepTime_cons]
    simp [stepTime_snd_length env t rest]

theorem genAux_length (env : Env) :
    ∀ (times : List ℕ) (cum : String → ℚ),
      (genAux env cum times).length = times.length * hives_config.length
  | [], _ => rfl
  | t :: ts, cum => by
    rw [genAux_cons]
    simp [stepTime_snd_length, genAux_length env ts]
    ring

theorem hives_config_length : hives_config.length = 7 := rfl

theorem hives_config_ids_nodup : (hives_config.map Hive.id).Nodup := by decide

theorem stepHive_fst_apply (env : Env) (t : ℕ) (cum : String → ℚ) (hive : Hive) (k : String) :
    (stepHive env t cum hive).1 k =
      if k = hive.id then cum k + hourly_production env t hive else cum k := rfl

theorem getD_mem_of_lt {α : Type} (l : List α) (d : α) (j : ℕ) (hj : j < l.length) :
    l.getD j d ∈ l := by
  rw [List.getD_eq_getElem l d hj]
  exact List.getElem_mem hj

theorem stepTime_fst_of_notMem (env : Env) (t : ℕ) :
    ∀ (hs : List Hive) (cum : String → ℚ) (k : String),
      k ∉ hs.map Hive.id → (stepTime env t cum hs).1 k = cum k
  | [], _, _, _ => rfl
  | hive :: rest, cum, k, hk => by
    rw [stepTime_cons]
    have hk1 : k ≠ hive.id := by
      intro h
      exact hk (by simp [h])
    have hk2 : k ∉ rest.map Hive.id := by
      intro h
      exact hk (by simp [h])
    rw [stepTime_fst_of_notMem env t rest _ k hk2, stepHive_fst_apply, if_neg hk1]

theorem stepTime_snd_getD (env : Env) (t : ℕ) :
    ∀ (hs : List Hive) (cum : String → ℚ) (j : ℕ), j < hs.length →
      (hs.map Hive.id).Nodup →
      (stepTime env t cum hs).2.getD j default =
        mkReading env t (hs.getD j default)
          (cum ((hs.getD j default).id) + hourly_production env t (hs.getD j default))
  | [], _, j, hj, _ => absurd hj (by simp)
  | hive :: rest, cum, 0, _, _ => by
    rw [stepTime_cons]
    simp [stepHive_snd]
  | hive :: rest, cum, j + 1, hj, hnd => by
    rw [stepTime_cons]
    have hj2 : j < rest.length := by simpa using hj
    have hnd2 : (rest.map Hive.id).Nodup := by
      simp only [List.map_cons, List.nodup_cons] at hnd
      exact hnd.2
    have hne : (rest.getD j default).id ≠ hive.id := by
      simp only [List.map_cons, List.nodup_cons] at hnd
      intro h
      apply hnd.1
      rw [← h]
      exact List.mem_map_of_mem Hive.id (getD_mem_of_lt rest default j hj2)
    have hcum : (stepHive env t cum hive).1 ((rest.getD j default).id) =
        cum ((rest.getD j default).id) := by
      rw [stepHive_fst_apply, if_neg hne]
    rw [List.getD_cons_succ, List.getD_cons_succ,
      stepTime_snd_getD env t rest _ j hj2 hnd2, hcum]

theorem stepTime_fst_getD (env : Env) (t : ℕ) :
    ∀ (hs : List Hive) (cum : String → ℚ) (j : ℕ), j < hs.length →
      (hs.map Hive.id).Nodup →
      (stepTime env t cum hs).1 ((hs.getD j default).id) =
        cum ((hs.getD j default).id) + hourly_production env t (hs.getD j default)
  | [], _, j, hj, _ => absurd hj (by simp)
  | hive :: rest, cum, 0, _, hnd => by
    rw [stepTime_cons]
    simp only [List.getD_cons_zero]
    have hnotm : hive.id ∉ rest.map Hive.id := by
      simp only [List.map_cons, List.nodup_cons] at hnd
      exact hnd.1
    rw [stepTime_fst_of_notMem env t rest _ hive.id hnotm, stepHive_fst_apply, if_pos rfl]
  | hive :: rest, cum, j + 1, hj, hnd => by
    rw [stepTime_cons]
    have hj2 : j < rest.length := by simpa using hj
    have hnd2 : (rest.map Hive.id).Nodup := by
      simp only [List.map_cons, List.nodup_cons] at hnd
      exact hnd.2
    have hne : (rest.getD j default).id ≠ hive.id := by
      simp only [List.map_cons, List.nodup_cons] at hnd
      intro h
      apply hnd.1
      rw [← h]
      exact List.mem_map_of_mem Hive.id (getD_mem_of_lt rest default j hj2)
    rw [List.getD_cons_succ, stepTime_fst_getD env t rest _ j hj2 hnd2,
      stepHive_fst_apply, if_neg hne]

theorem mem_stepTime_snd (env : Env) (t : ℕ) :
    ∀ (hs : List Hive) (cum : String → ℚ) (r : Reading),
      r ∈ (stepTime env t cum hs).2 →
      ∃ hive ∈ hs, ∃ c : ℚ, r = mkReading env t hive c
  | [], _, _, hr => absurd hr (by simp [stepTime_nil])
  | hive :: rest, cum, r, hr => by
    rw [stepTime_cons] at hr
    rcases List.mem_cons.mp hr with h | h
    · exact ⟨hive, by simp, cum hive.id + hourly_production env t hive,
        by rw [h, stepHive_snd]⟩
    · obtain ⟨hive2, hm, c, hc⟩ := mem_stepTime_snd env t rest _ r h
      exact ⟨hive2, by simp [hm], c, hc⟩

theorem mem_genAux (env : Env) :
    ∀ (times : List ℕ) (cum : String → ℚ) (r : Reading),
      r ∈ genAux env cum times →
      ∃ t ∈ times, ∃ hive ∈ hives_config, ∃ c : ℚ, r = mkReading env t hive c
  | [], _, _, hr => absurd hr (by simp [genAux_nil])
  | t :: ts, cum, r, hr => by
    rw [genAux_cons] at hr
    rcases List.mem_append.mp hr with h | h
    · obtain ⟨hive, hm, c, hc⟩ := mem_stepTime_snd env t hives_config cum r h
      exact ⟨t, by simp, hive, hm, c, hc⟩
    · obtain ⟨t2, ht2, hive, hm, c, hc⟩ := mem_genAux env ts _ r h
      exact ⟨t2, by simp [ht2], hive, hm, c, hc⟩

theorem mkReading_timestamp (env : Env) (t : ℕ) (hive : Hive) (c : ℚ) :
    (mkReading env t hive c).timestamp = t := rfl

theorem mkReading_hive_id (env : Env) (t : ℕ) (hive : Hive) (c : ℚ) :
    (mkReading env t hive c).hive_id = hive.id := rfl

theorem mkReading_cumulative (env : Env) (t : ℕ) (hive : Hive) (c : ℚ) :
    (mkReading env t hive c).cumulative_production = roundTo 3 c := rfl

theorem mkReading_activity (env : Env) (t : ℕ) (hive : Hive) (c : ℚ) :
    (mkReading env t hive c).activity_level = roundTo 0 (activity env t hive) := rfl

theorem mkReading_humidity (env : Env) (t : ℕ) (hive : Hive) (c : ℚ) :
    (mkReading env t hive c).humidity = roundTo 1 (humidity env t hive) := rfl

theorem mkReading_hourly (env : Env) (t : ℕ) (hive : Hive) (c : ℚ) :
    (mkReading env t hive c).hourly_production = roundTo 4 (hourly_production env t hive) := rfl

/-- The central indexing lemma: in the output of the loop started with
accumulator `cum`, the row at position `i * 7 + j` is the reading of hive
`j` at the `i`-th timestamp, and the accumulator value recorded in it is
`cum` at that hive id plus the running sum of the raw hourly
production over the first `i + 1` timestamps. -/
theorem genAux_getD (env : Env) :
    ∀ (times : List ℕ) (cum : String → ℚ) (i j : ℕ),
      i < times.length → j < 7 →
      (genAux env cum times).getD (i * 7 + j) default =
        mkReading env (times.getD i 0) (hives_config.getD j default)
          (cum ((hives_config.getD j default).id) +
            running_sum env (hives_config.getD j default) (times.take (i + 1)))
  | [], _, _, _, hi, _ => absurd hi (by simp)
  | t :: ts, cum, 0, j, _, hj => by
    rw [genAux_cons, Nat.zero_mul, Nat.zero_add,
      List.getD_append _ _ default j (by rw [stepTime_snd_length]; exact hj),
      stepTime_snd_getD env t hives_config cum j hj hives_config_ids_nodup]
    simp [running_sum]
  | t :: ts, cum, i + 1, j, hi, hj => by
    rw [genAux_cons]
    have hlen : (stepTime env t cum hives_config).2.length = 7 := stepTime_snd_length env t _ _
    have hge : (stepTime env t cum hives_config).2.length ≤ (i + 1) * 7 + j := by
      rw [hlen]; omega
    rw [List.getD_append_right _ _ default _ hge]
    have hidx : (i + 1) * 7 + j - (stepTime env t cum hives_config).2.length = i * 7 + j := by
      rw [hlen]; omega
    rw [hidx, genAux_getD env ts _ i j (by simpa using hi) hj]
    have hcum : (stepTime env t cum hives_config).1 ((hives_config.getD j default).id) =
        cum ((hives_config.getD j default).id) +
          hourly_production env t (hives_config.getD j default) :=
      stepTime_fst_getD env t hives_config cum j hj hives_config_ids_nodup
    have hrs : running_sum env (hives_config.getD j default) ((t :: ts).take (i + 1 + 1)) =
        hourly_production env t (hives_config.getD j default) +
          running_sum env (hives_config.getD j default) (ts.take (i + 1)) := by
      rw [List.take_succ_cons]
      simp [running_sum]
    rw [hcum, hrs, List.getD_cons_succ, add_assoc]

/-! Projections of the generated rows onto (timestamp, hive id). -/

theorem stepTime_snd_map_proj (env : Env) (t : ℕ) :
    ∀ (hs : List Hive) (cum : String → ℚ),
      (stepTime env t cum hs).2.map (fun r => (r.timestamp, r.hive_id)) =
        hs.map (fun h => (t, h.id))
  | [], _ => rfl
  | hive :: rest, cum => by
    rw [stepTime_cons]
    simp only [List.map_cons, stepHive_snd, mkReading_timestamp, mkReading_hive_id,
      stepTime_snd_map_proj env t rest]

theorem genAux_map_proj (env : Env) :
    ∀ (times : List ℕ) (cum : String → ℚ),
      (genAux env cum times).map (fun r => (r.timestamp, r.hive_id)) =
        times.flatMap (fun t => hives_config.map (fun h => (t, h.id)))
  | [], _ => rfl
  | t :: ts, cum => by
    rw [genAux_cons, List.map_append, stepTime_snd_map_proj, genAux_map_proj env ts,
      List.flatMap_cons]

theorem stepTime_snd_map_timestamp (env : Env) (t : ℕ) :
    ∀ (hs : List Hive) (cum : String → ℚ),
      (stepTime env t cum hs).2.map Reading.timestamp = List.replicate hs.length t
  | [], _ => rfl
  | hive :: rest, cum => by
    rw [stepTime_cons]
    simp only [List.map_cons, stepHive_snd, mkReading_timestamp,
      stepTime_snd_map_timestamp env t rest, List.length_cons, List.replicate_succ]

theorem genAux_map_timestamp (env : Env) :
    ∀ (times : List ℕ) (cum : String → ℚ),
      (genAux env cum times).map Reading.timestamp =
        times.flatMap (fun t => List.replicate 7 t)
  | [], _ => rfl
  | t :: ts, cum => by
    rw [genAux_cons, List.map_append, stepTime_snd_map_timestamp, genAux_map_timestamp env ts,
      List.flatMap_cons, hives_config_length]

theorem pairwise_flatMap_replicate {l : List ℕ} (n : ℕ) (hl : l.Pairwise (· ≤ ·)) :
    (l.flatMap (fun t => List.replicate n t)).Pairwise (· ≤ ·) := by
  induction hl with
  | nil => simp
  | cons hhead htail ih =>
    rw [List.flatMap_cons, List.pairwise_append]
    refine ⟨?_, ih, ?_⟩
    · rw [List.pairwise_replicate]
      right
      exact le_refl _
    · intro a ha b hb
      obtain ⟨t2, ht2, hbmem⟩ := List.mem_flatMap.mp hb
      rw [List.eq_of_mem_replicate ha, List.eq_of_mem_replicate hbmem]
      exact hhead t2 ht2

/-! Nonnegativity of the raw hourly production, and monotonicity of its
running sums over prefixes of the time grid. -/

theorem hourly_production_nonneg (env : Env) (t : ℕ) (hive : Hive)
    (hsin : ∀ x, -1 ≤ env.sin2pi x)
    (hu : ∀ s k, (0.7 : ℚ) ≤ env.production_uniform s k) :
    0 ≤ hourly_production env t hive := by
  unfold hourly_production
  split
  · have h1 : (0:ℚ) ≤ base_hourly_production hive := by
      unfold base_hourly_production production_multiplier
      split <;> norm_num
    have h2 : (0:ℚ) ≤ temp_factor env t hive := by
      unfold temp_factor
      split <;> norm_num
    have h3 : (0:ℚ) ≤ humidity_factor env t hive := by
      unfold humidity_factor
      split <;> norm_num
    have h4 : (0:ℚ) ≤ activity_factor env t hive := by
      unfold activity_factor activity
      exact div_nonneg (le_max_left 0 _) (by norm_num)
    have h5 : (0:ℚ) ≤ seasonal_factor env t := by
      unfold seasonal_factor
      have := hsin (((env.day_of_year t : ℚ) - 80) / 365)
      nlinarith
    have h6 : (0:ℚ) ≤ env.production_uniform t hive.id :=
      le_trans (by norm_num) (hu t hive.id)
    exact mul_nonneg (mul_nonneg (mul_nonneg (mul_nonneg (mul_nonneg h1 h2) h3) h4) h5) h6
  · exact le_refl 0

theorem running_sum_nonneg (env : Env) (hive : Hive)
    (h : ∀ t, 0 ≤ hourly_production env t hive) (ts : List ℕ) :
    0 ≤ running_sum env hive ts := by
  unfold running_sum
  apply List.sum_nonneg
  intro a ha
  obtain ⟨t, _, rfl⟩ := List.mem_map.mp ha
  exact h t

theorem running_sum_take_mono (env : Env) (hive : Hive)
    (h : ∀ t, 0 ≤ hourly_production env t hive) :
    ∀ (ts : List ℕ) (i1 i2 : ℕ), i1 ≤ i2 →
      running_sum env hive (ts.take i1) ≤ running_sum env hive (ts.take i2)
  | [], _, _, _ => by simp
  | t :: ts, 0, i2, _ => by
    simpa [running_sum] using running_sum_nonneg env hive h ((t :: ts).take i2)
  | t :: ts, i1 + 1, i2, h12 => by
    obtain ⟨i2b, rfl⟩ : ∃ k, i2 = k + 1 := ⟨i2 - 1, by omega⟩
    rw [List.take_succ_cons, List.take_succ_cons]
    simp only [running_sum, List.map_cons, List.sum_cons]
    have := running_sum_take_mono env hive h ts i1 i2b (by omega)
    exact add_le_add_left this _

theorem generate_fst (env : Env) (times : List ℕ) :
    (generate_beehive_data env times).1 = genAux env (fun _ => 0) times := rfl

theorem generate_length (env : Env) (times : List ℕ) :
    (generate_beehive_data env times).1.length = times.length * 7 := by
  rw [generate_fst, genAux_length, hives_config_length]

/-! The claims. -/

/-- C6: in the static 7-entry topology, the master_id of every
worker-type hive is the id of some master-type hive present in the table,
and every master-type hive has its master_id unset. -/
theorem topology_master_references (hive : Hive) (hm : hive ∈ hives_config) :
    (hive.type = "worker" →
      ∃ m ∈ hives_config, m.type = "master" ∧ hive.master_id = some m.id) ∧
    (hive.type = "master" → hive.master_id = none) := by
  fin_cases hm <;> decide

/-- Witness for C6 at the second topology entry, a worker hive. -/
theorem topology_master_references_witness :
    hives_config.getD 1 default ∈ hives_config ∧
    (((hives_config.getD 1 default).type = "worker" →
      ∃ m ∈ hives_config, m.type = "master" ∧
        (hives_config.getD 1 default).master_id = some m.id) ∧
    ((hives_config.getD 1 default).type = "master" →
      (hives_config.getD 1 default).master_id = none)) :=
  ⟨by decide, topology_master_references (hives_config.getD 1 default) (by decide)⟩

/-- C9: computing the reading of one hive at one timestamp updates only
the accumulator entry of that hive: every other key of the
cumulative-production map is unchanged by the step. -/
theorem stepHive_frame (env : Env) (t : ℕ) (cum : String → ℚ) (hive : Hive) (k : String)
    (hk : k ≠ hive.id) : (stepHive env t cum hive).1 k = cum k := by
  rw [stepHive_fst_apply, if_neg hk]

/-- Witness for C9: processing the first (master) hive leaves the
accumulator entry of a worker hive untouched. -/
theorem stepHive_frame_witness :
    ("worker_001" : String) ≠ (hives_config.getD 0 default).id ∧
    (stepHive env_neutral 12 (fun _ => (0 : ℚ)) (hives_config.getD 0 default)).1 "worker_001"
      = 0 :=
  ⟨by decide, stepHive_frame env_neutral 12 (fun _ => 0) (hives_config.getD 0 default)
    "worker_001" (by decide)⟩

/-- C10: with the time grid and the random draws as explicit inputs, the
generator is deterministic: two runs on an identical grid and pointwise
identical draw and calendar functions produce identical row lists and
identical topology tables. -/
theorem generate_deterministic (env1 env2 : Env) (times1 times2 : List ℕ)
    (hts : times1 = times2)
    (hsin : ∀ x, env1.sin2pi x = env2.sin2pi x)
    (hdoy : ∀ t, env1.day_of_year t = env2.day_of_year t)
    (htn : ∀ t k, env1.temp_noise t k = env2.temp_noise t k)
    (hhn : ∀ t k, env1.humidity_noise t k = env2.humidity_noise t k)
    (hwn : ∀ t k, env1.weight_noise t k = env2.weight_noise t k)
    (han : ∀ t k, env1.activity_noise t k = env2.activity_noise t k)
    (hpu : ∀ t k, env1.production_uniform t k = env2.production_uniform t k) :
    generate_beehive_data env1 times1 = generate_beehive_data env2 times2 := by
  have henv : env1 = env2 := by
    cases env1
    cases env2
    congr 1
    · exact funext hsin
    · exact funext hdoy
    · exact funext fun t => funext fun k => htn t k
    · exact funext fun t => funext fun k => hhn t k
    · exact funext fun t => funext fun k => hwn t k
    · exact funext fun t => funext fun k => han t k
    · exact funext fun t => funext fun k => hpu t k
  rw [henv, hts]

/-- Witness for C10 at a concrete environment and a one-point grid. -/
theorem generate_deterministic_witness :
    ([12] : List ℕ) = [12] ∧ (∀ x, env_neutral.sin2pi x = env_neutral.sin2pi x) ∧
    generate_beehive_data env_neutral [12] = generate_beehive_data env_neutral [12] :=
  ⟨rfl, fun _ => rfl,
    generate_deterministic env_neutral env_neutral [12] [12] rfl
      (fun _ => rfl) (fun _ => rfl) (fun _ _ => rfl) (fun _ _ => rfl) (fun _ _ => rfl)
      (fun _ _ => rfl) (fun _ _ => rfl)⟩

/-- C3 counterexample: with a daytime hour and an activity draw of -49.7,
the raw activity is 0.3, so the emitted activity_level rounds to 0 while
the emitted production_efficiency is 27/2500 ≠ 0: the source guards the
division on the raw activity, not on the rounded emitted value. -/
theorem activity_level_zero_efficiency_nonzero :
    ((generate_beehive_data env_low_activity [12]).1.getD 0 default).activity_level = 0 ∧
    ((generate_beehive_data env_low_activity [12]).1.getD 0 default).production_efficiency
      ≠ 0 := by
  simp only [generate_beehive_data, genAux, stepTime, stepHive, mkReading, hives_config,
    roundTo, activity, base_activity, hour, activity_factor, temp_factor, humidity_factor,
    temperature, base_temp, humidity, base_humidity, seasonal_factor, base_hourly_production,
    production_multiplier, hourly_production, production_efficiency, env_low_activity,
    env_neutral, List.getD, List.append_nil, List.cons_append, List.getElem?_cons_zero,
    Option.getD_some, round_eq]
  norm_num

/-- C3 (amended): when the raw activity value is 0, the efficiency is 0
both before and after the emission rounding; and in the branch where the
division is performed the divisor activity/100 is nonzero, so no division
by zero occurs. -/
theorem efficiency_zero_of_raw_activity_zero (env : Env) (t : ℕ) (hive : Hive) :
    (activity env t hive = 0 →
      production_efficiency env t hive = 0 ∧
        roundTo 4 (production_efficiency env t hive) = 0) ∧
    (activity env t hive ≠ 0 → activity env t hive / 100 ≠ 0) := by
  constructor
  · intro h0
    have hneg : ¬ 0 < activity env t hive := by
      rw [h0]
      exact lt_irrefl 0
    unfold production_efficiency
    rw [if_neg hneg]
    exact ⟨rfl, roundTo_zero 4⟩
  · intro hne
    exact div_ne_zero hne (by norm_num)

/-- Witness for the amended C3: an activity draw of -100 at a daytime
hour clamps the raw activity to exactly 0 and the efficiency is 0. -/
theorem efficiency_zero_of_raw_activity_zero_witness :
    activity env_zero_activity 12 (hives_config.getD 0 default) = 0 ∧
    production_efficiency env_zero_activity 12 (hives_config.getD 0 default) = 0 := by
  have h0 : activity env_zero_activity 12 (hives_config.getD 0 default) = 0 := by
    simp only [activity, base_activity, hour, env_zero_activity, env_neutral]
    norm_num
  exact ⟨h0,
    ((efficiency_zero_of_raw_activity_zero env_zero_activity 12
      (hives_config.getD 0 default)).1 h0).1⟩

/-- C2: every generated row belongs to some grid timestamp `t` and hive;
its hourly_production field is exactly 0 when `hour t` lies outside
[6,20], and inside the window it is the 4-decimal emission rounding of
the product of the base rate, the temperature, humidity and activity
factors, the seasonal factor, and the uniform draw. -/
theorem hourly_production_formula (env : Env) (times : List ℕ) (r : Reading)
    (hr : r ∈ (generate_beehive_data env times).1) :
    ∃ t ∈ times, ∃ hive ∈ hives_config,
      r.timestamp = t ∧ r.hive_id = hive.id ∧
      (¬(6 ≤ hour t ∧ hour t ≤ 20) → r.hourly_production = 0) ∧
      ((6 ≤ hour t ∧ hour t ≤ 20) →
        r.hourly_production =
          roundTo 4 (base_hourly_production hive * temp_factor env t hive *
            humidity_factor env t hive * activity_factor env t hive *
            seasonal_factor env t * env.production_uniform t hive.id)) := by
  rw [generate_fst] at hr
  obtain ⟨t, ht, hive, hm, c, rfl⟩ := mem_genAux env times _ r hr
  refine ⟨t, ht, hive, hm, rfl, rfl, ?_, ?_⟩
  · intro hout
    rw [mkReading_hourly]
    unfold hourly_production
    rw [if_neg hout]
    exact roundTo_zero 4
  · intro hin
    rw [mkReading_hourly]
    unfold hourly_production
    rw [if_pos hin]

/-- Witness for C2 at hour 2, outside the active window. -/
theorem hourly_production_formula_witness :
    (generate_beehive_data env_neutral [2]).1.getD 0 default
        ∈ (generate_beehive_data env_neutral [2]).1 ∧
    (∃ t ∈ ([2] : List ℕ), ∃ hive ∈ hives_config,
      ((generate_beehive_data env_neutral [2]).1.getD 0 default).timestamp = t ∧
      ((generate_beehive_data env_neutral [2]).1.getD 0 default).hive_id = hive.id ∧
      (¬(6 ≤ hour t ∧ hour t ≤ 20) →
        ((generate_beehive_data env_neutral [2]).1.getD 0 default).hourly_production = 0) ∧
      ((6 ≤ hour t ∧ hour t ≤ 20) →
        ((generate_beehive_data env_neutral [2]).1.getD 0 default).hourly_production =
          roundTo 4 (base_hourly_production hive * temp_factor env_neutral t hive *
            humidity_factor env_neutral t hive * activity_factor env_neutral t hive *
            seasonal_factor env_neutral t * env_neutral.production_uniform t hive.id))) := by
  have hmem : (generate_beehive_data env_neutral [2]).1.getD 0 default
      ∈ (generate_beehive_data env_neutral [2]).1 := by
    apply getD_mem_of_lt
    rw [generate_length]
    norm_num
  exact ⟨hmem, hourly_production_formula env_neutral [2] _ hmem⟩

/-- C5: every generated row has its activity_level field in [0,100] and
its humidity field in [30,90]. -/
theorem activity_humidity_bounds (env : Env) (times : List ℕ) (r : Reading)
    (hr : r ∈ (generate_beehive_data env times).1) :
    0 ≤ r.activity_level ∧ r.activity_level ≤ 100 ∧
    30 ≤ r.humidity ∧ r.humidity ≤ 90 := by
  rw [generate_fst] at hr
  obtain ⟨t, _, hive, _, c, rfl⟩ := mem_genAux env times _ r hr
  rw [mkReading_activity, mkReading_humidity]
  have hact0 : (0:ℚ) ≤ activity env t hive := le_max_left 0 _
  have hact100 : activity env t hive ≤ 100 := max_le (by norm_num) (min_le_left 100 _)
  have hhum30 : (30:ℚ) ≤ humidity env t hive := le_max_left 30 _
  have hhum90 : humidity env t hive ≤ 90 := max_le (by norm_num) (min_le_left 90 _)
  have e0 : roundTo 0 (0:ℚ) = 0 := roundTo_zero 0
  have e100 : roundTo 0 (100:ℚ) = 100 := by simpa using roundTo_natCast 0 100
  have e30 : roundTo 1 (30:ℚ) = 30 := by simpa using roundTo_natCast 1 30
  have e90 : roundTo 1 (90:ℚ) = 90 := by simpa using roundTo_natCast 1 90
  refine ⟨?_, ?_, ?_, ?_⟩
  · rw [← e0]
    exact roundTo_mono 0 hact0
  · rw [← e100]
    exact roundTo_mono 0 hact100
  · rw [← e30]
    exact roundTo_mono 1 hhum30
  · rw [← e90]
    exact roundTo_mono 1 hhum90

/-- Witness for C5 at a concrete daytime row. -/
theorem activity_humidity_bounds_witness :
    (generate_beehive_data env_neutral [12]).1.getD 0 default
        ∈ (generate_beehive_data env_neutral [12]).1 ∧
    (0 ≤ ((generate_beehive_data env_neutral [12]).1.getD 0 default).activity_level ∧
      ((generate_beehive_data env_neutral [12]).1.getD 0 default).activity_level ≤ 100 ∧
      30 ≤ ((generate_beehive_data env_neutral [12]).1.getD 0 default).humidity ∧
      ((generate_beehive_data env_neutral [12]).1.getD 0 default).humidity ≤ 90) := by
  have hmem : (generate_beehive_data env_neutral [12]).1.getD 0 default
      ∈ (generate_beehive_data env_neutral [12]).1 := by
    apply getD_mem_of_lt
    rw [generate_length]
    norm_num
  exact ⟨hmem, activity_humidity_bounds env_neutral [12] _ hmem⟩

/-- C4: for a master-type hive at an hour-12 grid point with day-of-year
172, activity exactly 100, temperature in [33,37] and humidity in
[45,65], and a uniform draw in [0.7,1.3], the computed hourly production
is strictly positive and at most
`0.008 * 1.5 * 1.3 * seasonal_factor` at day 172. -/
theorem master_solstice_production_bounds (env : Env) (t : ℕ) (hive : Hive)
    (hm : hive.type = "master") (hh : hour t = 12) (hd : env.day_of_year t = 172)
    (ha : activity env t hive = 100)
    (htemp : 33 ≤ temperature env t hive ∧ temperature env t hive ≤ 37)
    (hhum : 45 ≤ humidity env t hive ∧ humidity env t hive ≤ 65)
    (hsin : ∀ x, -1 ≤ env.sin2pi x ∧ env.sin2pi x ≤ 1)
    (hu : (0.7:ℚ) ≤ env.production_uniform t hive.id ∧
      env.production_uniform t hive.id ≤ 1.3) :
    0 < hourly_production env t hive ∧
    hourly_production env t hive ≤ 0.008 * 1.5 * 1.3 * seasonal_factor env t ∧
    seasonal_factor env t = 0.5 + 0.8 * (0.5 + 0.5 * env.sin2pi ((172 - 80) / 365)) := by
  have hday : seasonal_factor env t =
      0.5 + 0.8 * (0.5 + 0.5 * env.sin2pi ((172 - 80) / 365)) := by
    unfold seasonal_factor
    rw [hd]
    norm_num
  have hwin : 6 ≤ hour t ∧ hour t ≤ 20 := by
    rw [hh]
    exact ⟨by norm_num, by norm_num⟩
  have htf : temp_factor env t hive = 1 := by
    unfold temp_factor
    rw [if_pos htemp]
    norm_num
  have hhf : humidity_factor env t hive = 1 := by
    unfold humidity_factor
    rw [if_pos hhum]
    norm_num
  have haf : activity_factor env t hive = 1 := by
    unfold activity_factor
    rw [ha]
    norm_num
  have hbase : base_hourly_production hive = 0.008 * 1.5 := by
    unfold base_hourly_production production_multiplier
    rw [if_pos hm]
  have hs : (0.5:ℚ) ≤ seasonal_factor env t := by
    unfold seasonal_factor
    have := (hsin (((env.day_of_year t : ℚ) - 80) / 365)).1
    nlinarith
  unfold hourly_production
  rw [if_pos hwin, htf, hhf, haf, hbase]
  refine ⟨?_, ?_, hday⟩
  · have hs0 : (0:ℚ) < seasonal_factor env t := by linarith
    have hu0 : (0:ℚ) < env.production_uniform t hive.id := by
      have := hu.1
      norm_num at this ⊢
      linarith
    nlinarith
  · have h1 : (0:ℚ) ≤ seasonal_factor env t := by linarith
    have h2 : (0:ℚ) ≤ 1.3 - env.production_uniform t hive.id := by
      have := hu.2
      linarith
    nlinarith [mul_nonneg h1 h2]

/-- Witness for C4: the neutral environment with a +60 activity draw
realizes every hypothesis at timestamp 12 for the first master hive. -/
theorem master_solstice_production_bounds_witness :
    (hives_config.getD 0 default).type = "master" ∧
    activity env_high_activity 12 (hives_config.getD 0 default) = 100 ∧
    (0 < hourly_production env_high_activity 12 (hives_config.getD 0 default) ∧
      hourly_production env_high_activity 12 (hives_config.getD 0 default) ≤
        0.008 * 1.5 * 1.3 * seasonal_factor env_high_activity 12 ∧
      seasonal_factor env_high_activity 12 =
        0.5 + 0.8 * (0.5 + 0.5 * env_high_activity.sin2pi ((172 - 80) / 365))) := by
  have ha : activity env_high_activity 12 (hives_config.getD 0 default) = 100 := by
    simp only [activity, base_activity, hour, env_high_activity, env_neutral]
    norm_num
  refine ⟨rfl, ha, ?_⟩
  apply master_solstice_production_bounds env_high_activity 12 (hives_config.getD 0 default)
    rfl rfl rfl ha
  · constructor <;>
      · simp only [temperature, base_temp, hour, env_high_activity, env_neutral]
        norm_num
  · constructor <;>
      · simp only [humidity, base_humidity, hour, env_high_activity, env_neutral]
        norm_num
  · intro x
    simp only [env_high_activity, env_neutral]
    norm_num
  · simp only [env_high_activity, env_neutral]
    norm_num

/-- C1: for the hive in topology column `j`, the cumulative_production
field of the row at time index `i2` is the 3-decimal emission rounding of
the running sum of the raw hourly_production values of that hive over the
grid timestamps up to and including index `i2`; and along ascending time
indices the emitted field is non-decreasing. -/
theorem cumulative_production_running_sum (env : Env) (times : List ℕ) (i1 i2 j : ℕ)
    (hsin : ∀ x, -1 ≤ env.sin2pi x)
    (hu : ∀ s k, (0.7:ℚ) ≤ env.production_uniform s k ∧ env.production_uniform s k ≤ 1.3)
    (h12 : i1 ≤ i2) (hi2 : i2 < times.length) (hj : j < 7) :
    ((generate_beehive_data env times).1.getD (i2 * 7 + j) default).cumulative_production =
      roundTo 3 (running_sum env (hives_config.getD j default) (times.take (i2 + 1))) ∧
    ((generate_beehive_data env times).1.getD (i1 * 7 + j) default).cumulative_production ≤
      ((generate_beehive_data env times).1.getD (i2 * 7 + j) default).cumulative_production := by
  have hg2 := genAux_getD env times (fun _ => 0) i2 j hi2 hj
  have hg1 := genAux_getD env times (fun _ => 0) i1 j (lt_of_le_of_lt h12 hi2) hj
  simp only [generate_fst, hg1, hg2, mkReading_cumulative, zero_add]
  refine ⟨trivial, ?_⟩
  apply roundTo_mono
  exact running_sum_take_mono env _
    (fun t => hourly_production_nonneg env t _ hsin (fun s k => (hu s k).1))
    times (i1 + 1) (i2 + 1) (by omega)

/-- Witness for C1 on a two-point grid, comparing the two rows of the
first hive. -/
theorem cumulative_production_running_sum_witness :
    (∀ x, -1 ≤ env_neutral.sin2pi x) ∧
    (∀ s k, (0.7:ℚ) ≤ env_neutral.production_uniform s k ∧
      env_neutral.production_uniform s k ≤ 1.3) ∧
    (0:ℕ) ≤ 1 ∧ 1 < ([12, 13] : List ℕ).length ∧ 0 < 7 ∧
    (((generate_beehive_data env_neutral [12, 13]).1.getD (1 * 7 + 0)
          default).cumulative_production =
        roundTo 3 (running_sum env_neutral (hives_config.getD 0 default)
          (([12, 13] : List ℕ).take (1 + 1))) ∧
      ((generate_beehive_data env_neutral [12, 13]).1.getD (0 * 7 + 0)
          default).cumulative_production ≤
        ((generate_beehive_data env_neutral [12, 13]).1.getD (1 * 7 + 0)
          default).cumulative_production) := by
  refine ⟨fun x => by norm_num [env_neutral], fun s k => by norm_num [env_neutral],
    by norm_num, by norm_num, by norm_num, ?_⟩
  exact cumulative_production_running_sum env_neutral [12, 13] 0 1 0
    (fun x => by norm_num [env_neutral]) (fun s k => by norm_num [env_neutral])
    (by norm_num) (by norm_num) (by norm_num)

/-- C7: the generator emits `times.length * 7` rows, and the projection
of the rows onto the pair (timestamp, hive id) is exactly the product of
the time grid with the topology ids, one pair per row; when the grid has
no duplicate timestamps the projected pairs are pairwise distinct, so
exactly one row exists per (timestamp, hive) pair. -/
theorem row_count_product (env : Env) (times : List ℕ) :
    (generate_beehive_data env times).1.length = times.length * 7 ∧
    (generate_beehive_data env times).1.map (fun r => (r.timestamp, r.hive_id)) =
      times.flatMap (fun t => hives_config.map (fun h => (t, h.id))) ∧
    (times.Nodup →
      ((generate_beehive_data env times).1.map (fun r => (r.timestamp, r.hive_id))).Nodup) := by
  refine ⟨generate_length env times, ?_, ?_⟩
  · rw [generate_fst, genAux_map_proj]
  · intro hnd
    rw [generate_fst, genAux_map_proj, List.nodup_flatMap]
    constructor
    · intro t _
      have hmm : hives_config.map (fun h => (t, h.id)) =
          (hives_config.map Hive.id).map (fun s => (t, s)) := by
        rw [List.map_map]
        rfl
      rw [hmm]
      exact List.Nodup.map (fun a b hab => by simpa using congrArg Prod.snd hab)
        hives_config_ids_nodup
    · apply List.Pairwise.imp ?_ hnd
      intro a b hab x hxa hxb
      obtain ⟨h1, _, he1⟩ := List.mem_map.mp hxa
      obtain ⟨h2, _, he2⟩ := List.mem_map.mp hxb
      apply hab
      have : (a, h1.id) = (b, h2.id) := by rw [he1, he2]
      simpa using congrArg Prod.fst this

/-- Witness for C7 on a concrete duplicate-free two-point grid. -/
theorem row_count_product_witness :
    (generate_beehive_data env_neutral [5, 9]).1.length = ([5, 9] : List ℕ).length * 7 ∧
    (generate_beehive_data env_neutral [5, 9]).1.map (fun r => (r.timestamp, r.hive_id)) =
      ([5, 9] : List ℕ).flatMap (fun t => hives_config.map (fun h => (t, h.id))) ∧
    ([5, 9] : List ℕ).Nodup ∧
    ((generate_beehive_data env_neutral [5, 9]).1.map
      (fun r => (r.timestamp, r.hive_id))).Nodup :=
  ⟨(row_count_product env_neutral [5, 9]).1,
    (row_count_product env_neutral [5, 9]).2.1,
    by decide,
    (row_count_product env_neutral [5, 9]).2.2 (by decide)⟩

/-- C8: the row at index `i * 7 + j` carries the `i`-th grid timestamp
and the id of the `j`-th hive in declaration order, so the sequence is
timestamp-major and hive-minor; and when the grid is ascending the
emitted timestamp sequence is ascending as well. -/
theorem row_order_timestamp_major (env : Env) (times : List ℕ) (i j : ℕ)
    (hi : i < times.length) (hj : j < 7) :
    ((generate_beehive_data env times).1.getD (i * 7 + j) default).timestamp =
      times.getD i 0 ∧
    ((generate_beehive_data env times).1.getD (i * 7 + j) default).hive_id =
      (hives_config.getD j default).id ∧
    (times.Pairwise (· ≤ ·) →
      ((generate_beehive_data env times).1.map Reading.timestamp).Pairwise (· ≤ ·)) := by
  have hg := genAux_getD env times (fun _ => 0) i j hi hj
  refine ⟨?_, ?_, ?_⟩
  · rw [generate_fst, hg, mkReading_timestamp]
  · rw [generate_fst, hg, mkReading_hive_id]
  · intro hsorted
    rw [generate_fst, genAux_map_timestamp]
    exact pairwise_flatMap_replicate 7 hsorted

/-- Witness for C8 at index (1, 2) of a sorted two-point grid. -/
theorem row_order_timestamp_major_witness :
    1 < ([3, 4] : List ℕ).length ∧ 2 < 7 ∧
    (((generate_beehive_data env_neutral [3, 4]).1.getD (1 * 7 + 2) default).timestamp =
        ([3, 4] : List ℕ).getD 1 0 ∧
      ((generate_beehive_data env_neutral [3, 4]).1.getD (1 * 7 + 2) default).hive_id =
        (hives_config.getD 2 default).id ∧
      (([3, 4] : List ℕ).Pairwise (· ≤ ·) →
        ((generate_beehive_data env_neutral [3, 4]).1.map Reading.timestamp).Pairwise
          (· ≤ ·))) :=
  ⟨by norm_num, by norm_num,
    row_order_timestamp_major env_neutral [3, 4] 1 2 (by norm_num) (by norm_num)⟩

end Beehive
